import Mathlib

/-!
Shallow embedding of the `phenomenon` WebGL micro-renderer
(`src/index.ts` — Renderer, `src/Instance.ts` — Instance).

Numbers that the JavaScript source handles as IEEE doubles are modelled as
rationals (`ℚ`); the claims under verification only involve exact small
values, where double and rational arithmetic agree.  JavaScript runtime
failures (TypeError from dereferencing `undefined`/`null`) are modelled with
`Except JsErr` or an explicit success flag.  GPU calls are modelled as an
emitted command trace.
-/

namespace Phenomenon

/-- A JavaScript runtime error.  The only kind the modelled code can raise is
a `TypeError` from reading or writing a property of `undefined`/`null`. -/
inductive JsErr
  | typeError
deriving DecidableEq, Repr

/-- A vertex `{ x, y, z }` as used in `geometry.vertices` / `geometry.normal`. -/
structure Vertex where
  x : ℚ
  y : ℚ
  z : ℚ
deriving DecidableEq, Repr

/-- `Instance.ts` line 3: `const positionMap = ['x', 'y', 'z']`, used as
`vertex[positionMap[l]]`.  For `l ≥ 3` the JS source would read property
`undefined` of the vertex and store `NaN`; that path is unreachable because
the built-in attributes are registered with `size = 3`, and we totalise it
with `0`. -/
def positionMap (v : Vertex) : Nat → ℚ
  | 0 => v.x
  | 1 => v.y
  | 2 => v.z
  | _ => 0

/-- `GeometryProps`: vertex list plus optional normals. -/
structure Geometry where
  vertices : List Vertex
  normal : Option (List Vertex)
deriving DecidableEq, Repr

/-- `AttributeProps` in its input role: `name`, `size` (components per
vertex) and the optional `data(j, multiplier)` generator function.  (The JS
source later overwrites the `data` field with the generated `Float32Array`;
we model the generated buffer as the return value of `prepareAttribute`
instead.) -/
structure AttributeProps where
  name : String
  size : Nat
  data : Option (Nat → Nat → List ℚ)

/-- A modifier function `modifier(data, k, l, this)`.  The `this` argument
(the owning instance) is modelled as an opaque value of type `I`. -/
def Modifier (I : Type) : Type :=
  Option (List ℚ) → Nat → Nat → I → ℚ

/-- The innermost body of the triple loop in `prepareAttribute`
(`Instance.ts` lines 138-152): resolve the value written at
(vertex `k`, component `l`), given the per-copy `data`.
Priority: registered modifier, then built-in `aPosition` / `aNormal`,
then `data[l]`.  Reading `vertices[k]`/`normal[k]` out of range or indexing
an `undefined` `data`/`normal` raises a TypeError, as in JS. -/
def resolveValue {I : Type} (modifiers : String → Option (Modifier I)) (self : I)
    (geometry : Geometry) (attr : AttributeProps) (data : Option (List ℚ))
    (k l : Nat) : Except JsErr ℚ :=
  match modifiers attr.name with
  | some modifier => .ok (modifier data k l self)
  | none =>
    if attr.name = "aPosition" then
      if k < geometry.vertices.length then
        .ok (positionMap (geometry.vertices.getD k ⟨0, 0, 0⟩) l)
      else
        .error .typeError
    else if attr.name = "aNormal" then
      match geometry.normal with
      | none => .error .typeError
      | some ns =>
        if k < ns.length then
          .ok (positionMap (ns.getD k ⟨0, 0, 0⟩) l)
        else
          .error .typeError
    else
      match data with
      | none => .error .typeError
      | some d => .ok (d.getD l 0)

/-- A `for (i = start; i < start + n; i += 1)` loop whose body produces one
value per iteration, aborting at the first error. -/
def loopVals {ε α : Type} (f : Nat → Except ε α) : Nat → Nat → Except ε (List α)
  | _, 0 => .ok []
  | i, n + 1 => do
    let v ← f i
    let rest ← loopVals f (i + 1) n
    pure (v :: rest)

/-- A `for` loop whose body produces a block of values per iteration,
concatenated in iteration order, aborting at the first error. -/
def loopConcat {ε α : Type} (f : Nat → Except ε (List α)) : Nat → Nat → Except ε (List α)
  | _, 0 => .ok []
  | i, n + 1 => do
    let xs ← f i
    let rest ← loopConcat f (i + 1) n
    pure (xs ++ rest)

/-- `Instance.prepareAttribute` (`Instance.ts` lines 123-159), as the flat
buffer it fills.  Outer loop over copies `j < multiplier` (computing
`data = attribute.data && attribute.data(j, multiplier)` once per copy),
middle loop over vertices `k`, inner loop over components `l`; the running
`offset` of the source corresponds to the concatenation order here. -/
def prepareAttribute {I : Type} (modifiers : String → Option (Modifier I)) (self : I)
    (geometry : Geometry) (multiplier : Nat) (attr : AttributeProps) :
    Except JsErr (List ℚ) :=
  loopConcat (fun j =>
    let data := attr.data.map (fun f => f j multiplier)
    loopConcat (fun k =>
      loopVals (fun l => resolveValue modifiers self geometry attr data k l) 0 attr.size)
      0 geometry.vertices.length)
    0 multiplier

/-! Basic loop lemmas. -/

theorem loopVals_ok_length {ε α : Type} (f : Nat → Except ε α) :
    ∀ (n i : Nat) (xs : List α), loopVals f i n = .ok xs → xs.length = n := by
  intro n
  induction n with
  | zero =>
    intro i xs h
    simp [loopVals] at h
    simp [← h]
  | succ m ih =>
    intro i xs h
    simp only [loopVals] at h
    cases hf : f i with
    | error e => rw [hf] at h; simp [Bind.bind, Except.bind, Functor.map, Except.map] at h
    | ok v =>
      rw [hf] at h
      cases hrest : loopVals f (i + 1) m with
      | error e => rw [hrest] at h; simp [Bind.bind, Except.bind, Functor.map, Except.map] at h
      | ok rest =>
        rw [hrest] at h
        simp [Bind.bind, Except.bind, Functor.map, Except.map, pure, Except.pure] at h
        subst h
        simp [ih (i + 1) rest hrest]

theorem loopConcat_ok_length {ε α : Type} (f : Nat → Except ε (List α)) (c : Nat)
    (hblocks : ∀ j ys, f j = .ok ys → ys.length = c) :
    ∀ (n i : Nat) (xs : List α), loopConcat f i n = .ok xs → xs.length = n * c := by
  intro n
  induction n with
  | zero =>
    intro i xs h
    simp [loopConcat] at h
    simp [← h]
  | succ m ih =>
    intro i xs h
    simp only [loopConcat] at h
    cases hf : f i with
    | error e => rw [hf] at h; simp [Bind.bind, Except.bind, Functor.map, Except.map] at h
    | ok v =>
      rw [hf] at h
      cases hrest : loopConcat f (i + 1) m with
      | error e => rw [hrest] at h; simp [Bind.bind, Except.bind, Functor.map, Except.map] at h
      | ok rest =>
        rw [hrest] at h
        simp [Bind.bind, Except.bind, Functor.map, Except.map, pure, Except.pure] at h
        subst h
        simp [List.length_append, hblocks i v hf, ih (i + 1) rest hrest,
          Nat.succ_mul, Nat.add_comm]

theorem loopVals_ok_of {ε α : Type} (f : Nat → Except ε α) (g : Nat → α) :
    ∀ (n i : Nat), (∀ j, i ≤ j → j < i + n → f j = .ok (g j)) →
      loopVals f i n = .ok ((List.range' i n).map g) := by
  intro n
  induction n with
  | zero => intro i _; simp [loopVals]
  | succ m ih =>
    intro i hg
    have hi : f i = .ok (g i) := hg i (Nat.le_refl i) (by omega)
    have hrest : loopVals f (i + 1) m = .ok ((List.range' (i + 1) m).map g) :=
      ih (i + 1) (fun j h1 h2 => hg j (by omega) (by omega))
    simp [loopVals, hi, hrest, Bind.bind, Except.bind, pure, Except.pure, List.range'_succ]

theorem loopConcat_ok_of {ε α : Type} (f : Nat → Except ε (List α)) (g : Nat → List α) :
    ∀ (n i : Nat), (∀ j, i ≤ j → j < i + n → f j = .ok (g j)) →
      loopConcat f i n = .ok ((List.range' i n).flatMap g) := by
  intro n
  induction n with
  | zero => intro i _; simp [loopConcat]
  | succ m ih =>
    intro i hg
    have hi : f i = .ok (g i) := hg i (Nat.le_refl i) (by omega)
    have hrest : loopConcat f (i + 1) m = .ok ((List.range' (i + 1) m).flatMap g) :=
      ih (i + 1) (fun j h1 h2 => hg j (by omega) (by omega))
    simp [loopConcat, hi, hrest, Bind.bind, Except.bind, pure, Except.pure, List.range'_succ]

/-! Range-shift and replication helpers for the buffer-layout claims. -/

theorem range'_shift_flatMap {β : Type} (G : Nat → List β) :
    ∀ (n s : Nat), (List.range' (s + 1) n).flatMap G
      = (List.range' s n).flatMap (fun k => G (k + 1)) := by
  intro n
  induction n with
  | zero => intro s; simp
  | succ m ih => intro s; simp [List.range'_succ, List.flatMap_cons, ih]

theorem flatMap_const_range' {β : Type} (L : List β) :
    ∀ (n i : Nat), (List.range' i n).flatMap (fun _ => L)
      = (List.replicate n L).flatten := by
  intro n
  induction n with
  | zero => intro i; simp
  | succ m ih => intro i; simp [List.range'_succ, List.replicate_succ, ih]

theorem range'_flatMap_index {α β : Type} (d : α) (F : α → List β) :
    ∀ (vs : List α) (G : Nat → List β),
      (∀ k, k < vs.length → G k = F (vs.getD k d)) →
      (List.range' 0 vs.length).flatMap G = vs.flatMap F := by
  intro vs
  induction vs with
  | nil => intro G _; simp
  | cons v rest ih =>
    intro G hG
    have h0 : G 0 = F v := by simpa using hG 0 (by simp)
    have hshift : ∀ k, k < rest.length → G (k + 1) = F (rest.getD k d) := by
      intro k hk
      have := hG (k + 1) (by simp; omega)
      simpa using this
    calc (List.range' 0 (v :: rest).length).flatMap G
        = G 0 ++ (List.range' 1 rest.length).flatMap G := by
          simp [List.length_cons, List.range'_succ]
      _ = F v ++ (List.range' 0 rest.length).flatMap (fun k => G (k + 1)) := by
          rw [h0, range'_shift_flatMap]
      _ = F v ++ rest.flatMap F := by rw [ih _ hshift]
      _ = (v :: rest).flatMap F := by simp

theorem flatten_replicate_getElem {β : Type} (L : List β) :
    ∀ (m j r : Nat), j < m → r < L.length →
      ((List.replicate m L).flatten)[j * L.length + r]? = L[r]? := by
  intro m
  induction m with
  | zero => intro j r hj _; omega
  | succ m ih =>
    intro j r hj hr
    cases j with
    | zero =>
      rw [show 0 * L.length + r = r by omega]
      simp [List.replicate_succ, List.flatten_cons, List.getElem?_append, hr]
    | succ j' =>
      have hlen : (j' + 1) * L.length + r = L.length + (j' * L.length + r) := by ring
      rw [List.replicate_succ, List.flatten_cons, hlen,
        List.getElem?_append_right (by omega)]
      simp only [Nat.add_sub_cancel_left]
      exact ih j' r (by omega) hr

/-! C1: buffer length of the attribute synthesis. -/

/-- `modifiers` lookup that never finds a modifier (the default `{}`). -/
def noModifiers : String → Option (Modifier Unit) := fun _ => none

/-- A concrete four-vertex geometry (a unit quad in the z = 0 plane). -/
def c1Geometry : Geometry :=
  { vertices := [⟨0, 0, 0⟩, ⟨1, 0, 0⟩, ⟨0, 1, 0⟩, ⟨1, 1, 0⟩], normal := none }

/-- A concrete custom attribute with three components per vertex whose
per-copy data depends on the copy index. -/
def c1Attr : AttributeProps :=
  { name := "aTint", size := 3
    data := some (fun j _ => [[0, 10, 20], [1, 11, 21], [2, 12, 22]].getD j []) }

/-- The buffer `prepareAttribute` produces for `c1Attr` over `c1Geometry`
with multiplier 3: three copies of twelve values; copy 1 starts at flat
index 12. -/
def c1Buf : List ℚ :=
  [0, 10, 20, 0, 10, 20, 0, 10, 20, 0, 10, 20,
   1, 11, 21, 1, 11, 21, 1, 11, 21, 1, 11, 21,
   2, 12, 22, 2, 12, 22, 2, 12, 22, 2, 12, 22]

/-- C1: for every geometry, attribute and multiplier, a successful
attribute-buffer synthesis produces a flat buffer of length exactly
`multiplier * vertexCount * componentsPerVertex`; in particular for
`vertexCount = 4`, `componentsPerVertex = 3`, `multiplier = 3` the buffer
length is `36 = 3 * 4 * 3` and the values of copy 1 begin at flat
index 12. -/
theorem c1_attribute_buffer_length :
    (∀ (I : Type) (modifiers : String → Option (Modifier I)) (self : I)
      (geometry : Geometry) (multiplier : Nat) (attr : AttributeProps) (buf : List ℚ),
      prepareAttribute modifiers self geometry multiplier attr = .ok buf →
      buf.length = multiplier * geometry.vertices.length * attr.size)
    ∧ prepareAttribute noModifiers () c1Geometry 3 c1Attr = .ok c1Buf
    ∧ c1Buf.length = 3 * 4 * 3
    ∧ (c1Buf.drop 12).take 12 = [1, 11, 21, 1, 11, 21, 1, 11, 21, 1, 11, 21] := by
  refine ⟨?_, by rfl, by rfl, by rfl⟩
  intro I modifiers self geometry multiplier attr buf hok
  unfold prepareAttribute at hok
  have hb : ∀ j ys,
      loopConcat (fun k =>
        loopVals (fun l => resolveValue modifiers self geometry attr
          (attr.data.map (fun f => f j multiplier)) k l) 0 attr.size)
        0 geometry.vertices.length = .ok ys →
      ys.length = geometry.vertices.length * attr.size := by
    intro j ys hy
    exact loopConcat_ok_length _ attr.size
      (fun k zs hz => loopVals_ok_length _ attr.size 0 zs hz)
      geometry.vertices.length 0 ys hy
  have h := loopConcat_ok_length _ (geometry.vertices.length * attr.size) hb
    multiplier 0 buf hok
  exact h.trans (Nat.mul_assoc _ _ _).symm

/-- Witness for C1: the length law applied at the concrete
four-vertex / three-component / multiplier-3 input. -/
theorem c1_attribute_buffer_length_witness : c1Buf.length = 3 * 4 * 3 :=
  c1_attribute_buffer_length.1 Unit noModifiers () c1Geometry 3 c1Attr c1Buf
    c1_attribute_buffer_length.2.1

/-! C2: a registered modifier fully overrides attribute resolution. -/

/-- Modelled from the spec (§4.2, resolution rule 1): the buffer whose
element at (copy `j`, vertex `k`, component `l`) is the modifier called on
`(perCopyData j, k, l, ownerInstance)`. -/
def modifierBufferSpec {I : Type} (modifier : Modifier I) (self : I)
    (dataOf : Nat → Option (List ℚ)) (multiplier vertexCount size : Nat) : List ℚ :=
  (List.range multiplier).flatMap fun j =>
    (List.range vertexCount).flatMap fun k =>
      (List.range size).map fun l => modifier (dataOf j) k l self

/-- C2: when a modifier function is registered for the attribute's name,
every element of the synthesized buffer equals the modifier's result on
`(perCopyData, vertexIndex, component, ownerInstance)` — for every attribute
name, so in particular for the built-in `aPosition` / `aNormal` names even
when geometry data is present. -/
theorem c2_modifier_overrides :
    ∀ (I : Type) (modifiers : String → Option (Modifier I)) (self : I)
      (geometry : Geometry) (multiplier : Nat) (attr : AttributeProps)
      (modifier : Modifier I),
      modifiers attr.name = some modifier →
      prepareAttribute modifiers self geometry multiplier attr =
        .ok (modifierBufferSpec modifier self
          (fun j => attr.data.map (fun f => f j multiplier))
          multiplier geometry.vertices.length attr.size) := by
  intro I modifiers self geometry multiplier attr modifier hmod
  have hres : ∀ (data : Option (List ℚ)) (k l : Nat),
      resolveValue modifiers self geometry attr data k l
        = .ok (modifier data k l self) := by
    intro data k l
    simp [resolveValue, hmod]
  have hinner : ∀ (data : Option (List ℚ)) (k : Nat),
      loopVals (fun l => resolveValue modifiers self geometry attr data k l) 0 attr.size
        = .ok ((List.range' 0 attr.size).map (fun l => modifier data k l self)) :=
    fun data k => loopVals_ok_of _ _ attr.size 0 (fun l _ _ => hres data k l)
  have hmid : ∀ (data : Option (List ℚ)),
      loopConcat (fun k =>
          loopVals (fun l => resolveValue modifiers self geometry attr data k l) 0 attr.size)
        0 geometry.vertices.length
        = .ok ((List.range' 0 geometry.vertices.length).flatMap
            (fun k => (List.range' 0 attr.size).map (fun l => modifier data k l self))) :=
    fun data => loopConcat_ok_of _ _ geometry.vertices.length 0 (fun k _ _ => hinner data k)
  have houter := loopConcat_ok_of
    (fun j =>
      let data := attr.data.map (fun f => f j multiplier)
      loopConcat (fun k =>
          loopVals (fun l => resolveValue modifiers self geometry attr data k l) 0 attr.size)
        0 geometry.vertices.length)
    (fun j => (List.range' 0 geometry.vertices.length).flatMap
        (fun k => (List.range' 0 attr.size).map
          (fun l => modifier (attr.data.map (fun f => f j multiplier)) k l self)))
    multiplier 0
    (fun j _ _ => hmid (attr.data.map (fun f => f j multiplier)))
  unfold prepareAttribute
  rw [houter]
  unfold modifierBufferSpec
  simp [List.range_eq_range']

/-- A concrete constant modifier. -/
def c2Mod : Modifier Unit := fun _ _ _ _ => 7

/-- A modifier registry that registers `c2Mod` for the built-in position
attribute name. -/
def c2Modifiers : String → Option (Modifier Unit) :=
  fun name => if name = "aPosition" then some c2Mod else none

/-- The built-in position attribute descriptor (as `prepareAttributes`
registers it: size 3, no data generator). -/
def c2AttrPos : AttributeProps := { name := "aPosition", size := 3, data := none }

/-- Witness for C2: the override law at the built-in `aPosition` name with
geometry vertex data present. -/
theorem c2_modifier_overrides_witness :
    prepareAttribute c2Modifiers () c1Geometry 2 c2AttrPos =
      .ok (modifierBufferSpec c2Mod ()
        (fun j => c2AttrPos.data.map (fun f => f j 2))
        2 c1Geometry.vertices.length c2AttrPos.size) :=
  c2_modifier_overrides Unit c2Modifiers () c1Geometry 2 c2AttrPos c2Mod (by rfl)

/-! C8: built-in position values replicate the geometry coordinates. -/

/-- Modelled from the spec (§4.2, resolution rule 2 / §8): the per-copy
buffer contents for the built-in position attribute — the coordinates of
each geometry vertex in order. -/
def positionCopySpec (vertices : List Vertex) : List ℚ :=
  vertices.flatMap (fun v => [v.x, v.y, v.z])

theorem positionCopySpec_length (vs : List Vertex) :
    (positionCopySpec vs).length = vs.length * 3 := by
  induction vs with
  | nil => simp [positionCopySpec]
  | cons v rest ih =>
    simp only [positionCopySpec, List.flatMap_cons, List.length_append,
      List.length_cons, List.length_nil] at ih ⊢
    omega

theorem positionCopySpec_getElem :
    ∀ (vs : List Vertex) (k l : Nat), k < vs.length → l < 3 →
      (positionCopySpec vs)[k * 3 + l]? = some (positionMap (vs.getD k ⟨0, 0, 0⟩) l) := by
  intro vs
  induction vs with
  | nil => intro k l hk _; simp at hk
  | cons v rest ih =>
    intro k l hk hl
    cases k with
    | zero =>
      simp only [positionCopySpec, List.flatMap_cons, List.getD_cons_zero]
      rw [show 0 * 3 + l = l by omega]
      interval_cases l <;> simp [positionMap]
    | succ k' =>
      have hk' : k' < rest.length := by simpa using hk
      simp only [positionCopySpec, List.flatMap_cons, List.getD_cons_succ]
      rw [show (k' + 1) * 3 + l = [v.x, v.y, v.z].length + (k' * 3 + l) from by
        simp only [List.length_cons, List.length_nil]; ring]
      rw [List.getElem?_append_right (Nat.le_add_right _ _), Nat.add_sub_cancel_left]
      simpa [positionCopySpec] using ih k' l hk' hl

/-- C8: with no modifier registered for the position attribute, the
synthesized buffer is `multiplier` identical copies of the geometry's
vertex coordinates; each copy equals the multiplier-1 buffer and the element
at (copy, vertex, component) is the component-th coordinate of
`geometry.vertices[vertexIndex]`. -/
theorem c8_position_replication :
    ∀ (I : Type) (modifiers : String → Option (Modifier I)) (self : I)
      (geometry : Geometry) (multiplier : Nat) (attr : AttributeProps),
      modifiers "aPosition" = none →
      attr.name = "aPosition" →
      attr.size = 3 →
      prepareAttribute modifiers self geometry multiplier attr
          = .ok ((List.replicate multiplier (positionCopySpec geometry.vertices)).flatten)
      ∧ prepareAttribute modifiers self geometry 1 attr
          = .ok (positionCopySpec geometry.vertices)
      ∧ ∀ j k l, j < multiplier → k < geometry.vertices.length → l < 3 →
          ((List.replicate multiplier (positionCopySpec geometry.vertices)).flatten)[
              j * (geometry.vertices.length * 3) + (k * 3 + l)]?
            = some (positionMap (geometry.vertices.getD k ⟨0, 0, 0⟩) l) := by
  intro I modifiers self geometry multiplier attr hmod hname hsize
  have hres : ∀ (data : Option (List ℚ)) (k l : Nat), k < geometry.vertices.length →
      resolveValue modifiers self geometry attr data k l
        = .ok (positionMap (geometry.vertices.getD k ⟨0, 0, 0⟩) l) := by
    intro data k l hk
    simp [resolveValue, hname, hmod, hk]
  have hcopy : ∀ (data : Option (List ℚ)),
      loopConcat (fun k =>
          loopVals (fun l => resolveValue modifiers self geometry attr data k l) 0 attr.size)
        0 geometry.vertices.length
        = .ok (positionCopySpec geometry.vertices) := by
    intro data
    have h1 : ∀ k, 0 ≤ k → k < 0 + geometry.vertices.length →
        loopVals (fun l => resolveValue modifiers self geometry attr data k l) 0 attr.size
          = .ok ((List.range' 0 3).map
              (fun l => positionMap (geometry.vertices.getD k ⟨0, 0, 0⟩) l)) := by
      intro k _ hk
      rw [hsize]
      exact loopVals_ok_of _ _ 3 0 (fun l _ _ => hres data k l (by omega))
    have h2 := loopConcat_ok_of _ _ geometry.vertices.length 0 h1
    rw [h2]
    congr 1
    exact range'_flatMap_index ⟨0, 0, 0⟩ (fun v => [v.x, v.y, v.z]) geometry.vertices _
      (fun k _ => rfl)
  have hgen : ∀ m, prepareAttribute modifiers self geometry m attr
      = .ok ((List.replicate m (positionCopySpec geometry.vertices)).flatten) := by
    intro m
    unfold prepareAttribute
    have houter := loopConcat_ok_of
      (fun j =>
        let data := attr.data.map (fun f => f j m)
        loopConcat (fun k =>
            loopVals (fun l => resolveValue modifiers self geometry attr data k l) 0 attr.size)
          0 geometry.vertices.length)
      (fun _ => positionCopySpec geometry.vertices)
      m 0
      (fun j _ _ => hcopy (attr.data.map (fun f => f j m)))
    rw [houter, flatMap_const_range']
  refine ⟨hgen multiplier, by simpa using hgen 1, ?_⟩
  intro j k l hj hk hl
  have hr : k * 3 + l < (positionCopySpec geometry.vertices).length := by
    rw [positionCopySpec_length]; omega
  have hidx := flatten_replicate_getElem (positionCopySpec geometry.vertices)
    multiplier j (k * 3 + l) hj hr
  rw [positionCopySpec_length] at hidx
  rw [hidx]
  exact positionCopySpec_getElem geometry.vertices k l hk hl

/-- The built-in position attribute descriptor used for the C8 witness. -/
def c8Attr : AttributeProps := { name := "aPosition", size := 3, data := none }

/-- Witness for C8: the replication law at the concrete four-vertex
geometry with multiplier 3, and the element at copy 1, vertex 2,
component 1. -/
theorem c8_position_replication_witness :
    prepareAttribute noModifiers () c1Geometry 3 c8Attr
        = .ok ((List.replicate 3 (positionCopySpec c1Geometry.vertices)).flatten)
    ∧ ((List.replicate 3 (positionCopySpec c1Geometry.vertices)).flatten)[
          1 * (c1Geometry.vertices.length * 3) + (2 * 3 + 1)]?
        = some (positionMap (c1Geometry.vertices.getD 2 ⟨0, 0, 0⟩) 1) :=
  ⟨(c8_position_replication Unit noModifiers () c1Geometry 3 c8Attr rfl rfl rfl).1,
   (c8_position_replication Unit noModifiers () c1Geometry 3 c8Attr rfl rfl rfl).2.2
     1 2 1 (by omega) (by decide) (by omega)⟩

/-! Uniform registry and the per-frame broadcast
(step 3 of `Instance.render`, `Instance.ts` lines 252-255). -/

/-- `UniformProps` (`types.d.ts`): type tag, value (numeric array; a scalar
is modelled as a one-element array) and the GPU location resolved by
`prepareUniforms` (`none` models an absent / not-yet-resolved location). -/
structure UniformProps where
  type : String
  value : List ℚ
  location : Option Nat
deriving DecidableEq, Repr

/-- JS object property read `uniforms[key]` on a registry modelled as an
insertion-ordered association list (JS object keys are unique; lookup takes
the first match). -/
def lookupUniform (key : String) : List (String × UniformProps) → Option UniformProps
  | [] => none
  | p :: rest => if p.1 = key then some p.2 else lookupUniform key rest

/-- The assignment `uniforms[key].value = v` on the entries named `key`. -/
def setUniformValue (key : String) (v : List ℚ) :
    List (String × UniformProps) → List (String × UniformProps)
  | [] => []
  | p :: rest =>
    (if p.1 = key then (p.1, { p.2 with value := v }) else p) :: setUniformValue key v rest

/-- `Object.keys(renderUniforms).forEach(key => uniforms[key].value =
renderUniforms[key].value)` (`Instance.ts` lines 253-255), iterating over
the shared entries in insertion order.  When a shared `key` is absent from
the instance registry, `uniforms[key]` is `undefined` and assigning to its
`value` property throws a TypeError: the loop stops there, the flag is
`false`, and the updates made before the throw are kept.  The flag is
`true` when the loop completes. -/
def broadcastUpdate : List (String × UniformProps) → List (String × UniformProps) →
    List (String × UniformProps) × Bool
  | [], reg => (reg, true)
  | (key, u) :: rest, reg =>
    match lookupUniform key reg with
    | none => (reg, false)
    | some _ => broadcastUpdate rest (setUniformValue key u.value reg)

/-- Looking a key up after `setUniformValue`: the entry is the old one, with
its value replaced exactly when the looked-up key is the written key. -/
theorem lookupUniform_setUniformValue_eq (key k : String) (v : List ℚ) :
    ∀ (reg : List (String × UniformProps)),
      lookupUniform key (setUniformValue k v reg)
        = (lookupUniform key reg).map
            (fun u => if key = k then { u with value := v } else u) := by
  intro reg
  induction reg with
  | nil => simp [lookupUniform, setUniformValue]
  | cons p rest ih =>
    by_cases hk : p.1 = k
    · by_cases hkey : p.1 = key
      · have hkk : key = k := hkey ▸ hk
        simp [lookupUniform, setUniformValue, hk, hkey, hkk]
      · have hkkey : ¬(k = key) := fun h => hkey (hk.trans h)
        simp [lookupUniform, setUniformValue, hk, hkey, hkkey, ih]
    · by_cases hkey : p.1 = key
      · have hkk : ¬(key = k) := fun h => hk (hkey.trans h)
        simp [lookupUniform, setUniformValue, hk, hkey, hkk]
      · simp [lookupUniform, setUniformValue, hk, hkey, ih]

/-- C3 counterexample: a shared-uniform name absent from the instance's own
uniform registry is NOT ignored — the broadcast raises a TypeError
(completion flag `false`) at that name. -/
theorem c3_absent_shared_name_counterexample :
    (broadcastUpdate
        [("uCamera", { type := "vec3", value := [0, 0, 2], location := none })]
        [("uOther", { type := "float", value := [1], location := some 0 })]).2
      = false := by rfl

/-- C3 (amended): during the broadcast of shared uniforms into an instance,
a shared name absent from the instance's own uniform registry is not
ignored: writing `uniforms[key].value` on the `undefined` lookup raises a
TypeError, so the broadcast does not complete (flag `false`).  (The
instance's registry never gains the missing name, but the "no error is
raised" part of the claim fails.) -/
theorem c3_absent_shared_name_error :
    ∀ (shared reg : List (String × UniformProps)) (key : String) (u : UniformProps),
      (key, u) ∈ shared → lookupUniform key reg = none →
      (broadcastUpdate shared reg).2 = false := by
  intro shared
  induction shared with
  | nil => intro reg key u hmem _; simp at hmem
  | cons p rest ih =>
    intro reg key u hmem habs
    obtain ⟨k0, u0⟩ := p
    simp only [broadcastUpdate]
    cases hl : lookupUniform k0 reg with
    | none => rfl
    | some w =>
      rcases List.mem_cons.mp hmem with heq | hmem'
      · cases heq
        rw [hl] at habs
        cases habs
      · have habs' : lookupUniform key (setUniformValue k0 u0.value reg) = none := by
          rw [lookupUniform_setUniformValue_eq, habs]
          rfl
        exact ih _ key u hmem' habs'

/-- Witness for the amended C3 at a concrete absent shared name. -/
theorem c3_absent_shared_name_error_witness :
    (broadcastUpdate
        [("uProjectionMatrix", { type := "mat4", value := [1], location := none })]
        [("uColor", { type := "vec4", value := [1, 0, 0, 1], location := some 3 })]).2
      = false :=
  c3_absent_shared_name_error
    [("uProjectionMatrix", { type := "mat4", value := [1], location := none })]
    [("uColor", { type := "vec4", value := [1, 0, 0, 1], location := some 3 })]
    "uProjectionMatrix" { type := "mat4", value := [1], location := none }
    (by simp) (by rfl)

/-- C6: the broadcast changes only `value` fields: for every key, the type
tag and the GPU location after the broadcast equal those before, and every
key not named in the shared set keeps its whole entry unchanged — whether or
not the broadcast completes. -/
theorem c6_broadcast_only_value :
    ∀ (shared reg : List (String × UniformProps)) (key : String),
      ((lookupUniform key (broadcastUpdate shared reg).1).map (fun u => u.type)
          = (lookupUniform key reg).map (fun u => u.type))
      ∧ ((lookupUniform key (broadcastUpdate shared reg).1).map (fun u => u.location)
          = (lookupUniform key reg).map (fun u => u.location))
      ∧ (key ∉ shared.map Prod.fst →
          lookupUniform key (broadcastUpdate shared reg).1 = lookupUniform key reg) := by
  intro shared
  induction shared with
  | nil => intro reg key; simp [broadcastUpdate]
  | cons p rest ih =>
    intro reg key
    obtain ⟨k0, u0⟩ := p
    simp only [broadcastUpdate]
    cases hl : lookupUniform k0 reg with
    | none => simp
    | some w =>
      obtain ⟨ih1, ih2, ih3⟩ := ih (setUniformValue k0 u0.value reg) key
      have hset := lookupUniform_setUniformValue_eq key k0 u0.value reg
      refine ⟨?_, ?_, ?_⟩
      · rw [ih1, hset]
        cases lookupUniform key reg
        · rfl
        · simp only [Option.map_some']
          split <;> rfl
      · rw [ih2, hset]
        cases lookupUniform key reg
        · rfl
        · simp only [Option.map_some']
          split <;> rfl
      · intro hnot
        have hnotk0 : ¬(key = k0) := fun h => hnot (by simp [h])
        have hnotrest : key ∉ rest.map Prod.fst := fun h => hnot (by simp [h])
        rw [ih3 hnotrest, hset]
        cases lookupUniform key reg
        · rfl
        · simp [hnotk0]

/-- Shared set for the C6 witness. -/
def c6Shared : List (String × UniformProps) :=
  [("uModelMatrix", { type := "mat4", value := [5], location := none })]

/-- Instance registry for the C6 witness: one shared name, one
instance-only name. -/
def c6Reg : List (String × UniformProps) :=
  [("uModelMatrix", { type := "mat4", value := [1], location := some 2 }),
   ("uLocal", { type := "float", value := [3], location := some 4 })]

/-- Witness for C6: type tag preserved at the shared name, and the
instance-only entry untouched. -/
theorem c6_broadcast_only_value_witness :
    ((lookupUniform "uModelMatrix" (broadcastUpdate c6Shared c6Reg).1).map (fun u => u.type)
        = (lookupUniform "uModelMatrix" c6Reg).map (fun u => u.type))
    ∧ lookupUniform "uLocal" (broadcastUpdate c6Shared c6Reg).1
        = lookupUniform "uLocal" c6Reg :=
  ⟨(c6_broadcast_only_value c6Shared c6Reg "uModelMatrix").1,
   (c6_broadcast_only_value c6Shared c6Reg "uLocal").2.2 (by simp [c6Shared])⟩

/-! GPU command traces and the Instance / Renderer lifecycle. -/

/-- A GPU call, as recorded in a command trace.  Handles are `Nat` ids. -/
inductive GpuCmd
  | deleteBuffer (b : Nat)
  | deleteProgram (p : Nat)
  | useProgram (p : Nat)
  | enableVertexAttribArray (loc : Nat)
  | bindBuffer (b : Nat)
  | vertexAttribPointer (loc size : Nat)
  | uniformUpload (type : String) (loc : Option Nat) (value : List ℚ)
  | drawArrays (mode first count : Nat)
deriving DecidableEq, Repr

/-- `BufferProps` (`types.d.ts`): attribute location, GPU buffer handle and
component size, as stored in `this.buffers` by `prepareBuffer`. -/
structure BufferProps where
  location : Nat
  buffer : Nat
  size : Nat
deriving DecidableEq, Repr

/-- The state of an `Instance` that the lifecycle claims need.  `gl = false`
models `this.gl = null` (after `destroy`); `vertexCount` models
`this.geometry.vertices.length`. -/
structure Instance where
  gl : Bool
  program : Nat
  buffers : List BufferProps
  uniforms : List (String × UniformProps)
  multiplier : Nat
  vertexCount : Nat
  mode : Nat
deriving DecidableEq, Repr

/-- `Instance.destroy` (`Instance.ts` lines 273-279): delete every owned
buffer in order, then the program, then set `this.gl = null`.  When `gl` is
already null, the first use of `this.gl` (the `deleteBuffer` call of the
loop, or `deleteProgram` when there are no buffers) throws a TypeError
before any GPU call is issued. -/
def Instance.destroy (i : Instance) : Except JsErr (Instance × List GpuCmd) :=
  if i.gl then
    .ok ({ i with gl := false },
      i.buffers.map (fun b => GpuCmd.deleteBuffer b.buffer)
        ++ [GpuCmd.deleteProgram i.program])
  else
    .error .typeError

/-- `Instance.render` (`Instance.ts` lines 238-268), as updated state,
command trace and completion flag.  When `this.gl` is null the first GPU
call `gl.useProgram(this.program)` throws before any command is issued
(flag `false`, empty trace).  Otherwise: use the program, rebind every
buffer, broadcast the shared uniforms (a TypeError there aborts the frame
with the partial uniform updates kept), upload every uniform through the
dispatch table (recorded as one upload command per uniform), and draw
`multiplier * vertexCount` vertices.  The optional `onRender` hook mutates
no modelled state. -/
def Instance.render (i : Instance) (renderUniforms : List (String × UniformProps)) :
    Instance × List GpuCmd × Bool :=
  if i.gl = false then (i, [], false)
  else
    let bindCmds := GpuCmd.useProgram i.program ::
      i.buffers.flatMap (fun b =>
        [GpuCmd.enableVertexAttribArray b.location, GpuCmd.bindBuffer b.buffer,
         GpuCmd.vertexAttribPointer b.location b.size])
    match broadcastUpdate renderUniforms i.uniforms with
    | (reg, false) => ({ i with uniforms := reg }, bindCmds, false)
    | (reg, true) =>
      ({ i with uniforms := reg },
        bindCmds
          ++ reg.map (fun p => GpuCmd.uniformUpload p.2.type p.2.location p.2.value)
          ++ [GpuCmd.drawArrays i.mode 0 (i.multiplier * i.vertexCount)],
        true)

/-- C10: `destroy` on a live instance deletes each owned GPU buffer in
order, then the program, and clears the context reference; a subsequent
`destroy` or `render` on the destroyed instance fails with a TypeError from
the null context and issues no further GPU release or draw command. -/
theorem c10_destroy_nulls_context :
    ∀ (i : Instance) (renderUniforms : List (String × UniformProps)),
      i.gl = true →
      Instance.destroy i
          = .ok ({ i with gl := false },
              i.buffers.map (fun b => GpuCmd.deleteBuffer b.buffer)
                ++ [GpuCmd.deleteProgram i.program])
      ∧ Instance.destroy { i with gl := false } = .error .typeError
      ∧ Instance.render { i with gl := false } renderUniforms
          = ({ i with gl := false }, [], false) := by
  intro i renderUniforms hgl
  refine ⟨?_, ?_, ?_⟩ <;> simp [Instance.destroy, Instance.render, hgl]

/-- A concrete live instance owning two buffers. -/
def c10Inst : Instance :=
  { gl := true, program := 7
    buffers := [{ location := 0, buffer := 10, size := 3 },
                { location := 1, buffer := 11, size := 3 }]
    uniforms := [], multiplier := 2, vertexCount := 4, mode := 4 }

/-- Witness for C10 at a concrete two-buffer instance. -/
theorem c10_destroy_nulls_context_witness :
    Instance.destroy c10Inst
        = .ok ({ c10Inst with gl := false },
            [GpuCmd.deleteBuffer 10, GpuCmd.deleteBuffer 11, GpuCmd.deleteProgram 7])
    ∧ Instance.destroy { c10Inst with gl := false } = .error .typeError
    ∧ Instance.render { c10Inst with gl := false } [] = ({ c10Inst with gl := false }, [], false) :=
  c10_destroy_nulls_context c10Inst [] rfl

/-! The Renderer instance registry (`index.ts`): a JS `Map` modelled as an
insertion-ordered association list with unique keys. -/

/-- JS `Map.set`: replace the entry in place when the key is present
(keeping its position), else append. -/
def mapSet {α : Type} (key : String) (v : α) : List (String × α) → List (String × α)
  | [] => [(key, v)]
  | p :: rest => if p.1 = key then (key, v) :: rest else p :: mapSet key v rest

/-- JS `Map.get`. -/
def mapGet {α : Type} (key : String) : List (String × α) → Option α
  | [] => none
  | p :: rest => if p.1 = key then some p.2 else mapGet key rest

/-- JS `Map.delete` (keys are unique, so deleting the first match deletes
the entry). -/
def mapDelete {α : Type} (key : String) : List (String × α) → List (String × α)
  | [] => []
  | p :: rest => if p.1 = key then rest else p :: mapDelete key rest

/-- The Renderer state the claims need: the instance registry
(`this.instances`), the shared uniforms, the camera position and the
running flag. -/
structure Renderer where
  instances : List (String × Instance)
  uniforms : List (String × UniformProps)
  position : Vertex
  shouldRender : Bool
deriving Repr

/-- The registration step of `Renderer.add` (`index.ts` lines 208-209):
`this.instances.set(key, instance)`.  The construction of the instance
(default filling, uniform snapshot, program compilation) happens before
this step; the snapshot-by-value semantics is modelled separately
(`deepSnapshot` below). -/
def Renderer.add (r : Renderer) (key : String) (inst : Instance) : Renderer :=
  { r with instances := mapSet key inst r.instances }

/-- `Renderer.remove` (`index.ts` lines 235-240): look the key up; return
(doing nothing) when it is absent; otherwise call `instance.destroy()` and
delete the key from the registry. -/
def Renderer.remove (r : Renderer) (key : String) : Except JsErr (Renderer × List GpuCmd) :=
  match mapGet key r.instances with
  | none => .ok (r, [])
  | some inst => do
    let (_, cmds) ← inst.destroy
    .ok ({ r with instances := mapDelete key r.instances }, cmds)

/-- A concrete live instance (program 1). -/
def c4Inst1 : Instance :=
  { gl := true, program := 1, buffers := [], uniforms := []
    multiplier := 1, vertexCount := 1, mode := 0 }

/-- A second, distinct concrete instance (program 2). -/
def c4Inst2 : Instance :=
  { gl := true, program := 2, buffers := [], uniforms := []
    multiplier := 1, vertexCount := 1, mode := 0 }

/-- A renderer holding `c4Inst1` under key "a". -/
def c4Renderer : Renderer :=
  { instances := [("a", c4Inst1)], uniforms := [], position := ⟨0, 0, 2⟩
    shouldRender := true }

/-- C4 counterexample: `add` at an already-used key with NO prior `remove`
replaces the earlier instance — it is replaced-and-abandoned (`add` issues
no GPU release for it), contradicting the claim that this happens only
after an explicit `remove`. -/
theorem c4_add_overwrites_counterexample :
    mapGet "a" (Renderer.add c4Renderer "a" c4Inst2).instances = some c4Inst2
    ∧ c4Inst2 ≠ c4Inst1
    ∧ mapGet "a" c4Renderer.instances = some c4Inst1 :=
  ⟨by rfl, by decide, by rfl⟩

/-- C4 (amended): `add(key, config)` registers the new instance under `key`
unconditionally: a previously registered instance at the same key is
always replaced, with or without a prior `remove`, and `add` itself never
destroys the replaced instance — only an explicit prior `remove` would
have destroyed it. -/
theorem c4_add_always_overwrites :
    ∀ (r : Renderer) (key : String) (inst : Instance),
      mapGet key (Renderer.add r key inst).instances = some inst := by
  intro r key inst
  show mapGet key (mapSet key inst r.instances) = some inst
  generalize r.instances = m
  induction m with
  | nil => simp [mapSet, mapGet]
  | cons p rest ih =>
    by_cases h : p.1 = key
    · simp [mapSet, mapGet, h]
    · simp [mapSet, mapGet, h, ih]

/-- C9: `remove` with an absent key is a no-op — the renderer is returned
unchanged, no GPU command is issued and no error is raised; with a present
(live) key it destroys that instance (its buffer deletes in order, then
its program delete) and deletes the key from the registry. -/
theorem c9_remove_semantics :
    ∀ (r : Renderer) (key : String),
      (mapGet key r.instances = none → Renderer.remove r key = .ok (r, []))
      ∧ (∀ inst, mapGet key r.instances = some inst → inst.gl = true →
          Renderer.remove r key
            = .ok ({ r with instances := mapDelete key r.instances },
                inst.buffers.map (fun b => GpuCmd.deleteBuffer b.buffer)
                  ++ [GpuCmd.deleteProgram inst.program])) := by
  intro r key
  constructor
  · intro habs
    simp [Renderer.remove, habs]
  · intro inst hl hgl
    simp [Renderer.remove, hl, Instance.destroy, hgl, Bind.bind, Except.bind]

/-- Witness for C9: an absent key is a no-op and the present key "a"
destroys and unregisters the instance. -/
theorem c9_remove_semantics_witness :
    Renderer.remove c4Renderer "missing" = .ok (c4Renderer, [])
    ∧ Renderer.remove c4Renderer "a"
        = .ok ({ c4Renderer with instances := mapDelete "a" c4Renderer.instances },
            [GpuCmd.deleteProgram 1]) :=
  ⟨(c9_remove_semantics c4Renderer "missing").1 (by rfl),
   (c9_remove_semantics c4Renderer "a").2 c4Inst1 (by rfl) (by rfl)⟩

/-! C7: the model matrix computed by `Renderer.resize`. -/

/-- The model matrix `resize` builds (`index.ts` lines 142-147): identity
rotation part and translation row
`(position.x, position.y, (ratio < 1 ? 1 : ratio) * -position.z, 1)`.
(The projection matrix of `resize` involves a tangent and is not needed by
any claim; the view matrix is the identity.) -/
def resizeModelMatrix (position : Vertex) (ratio : ℚ) : List ℚ :=
  [1, 0, 0, 0,
   0, 1, 0, 0,
   0, 0, 1, 0,
   position.x, position.y, (if ratio < 1 then 1 else ratio) * (-position.z), 1]

/-- C7: the depth (translation-z) term of the model matrix — flat index 14 —
equals `ratio * -position.z` when `ratio ≥ 1` and `-position.z` when
`ratio < 1`; in particular ratio 1 gives `-position.z` and ratio 2 gives
`-2 * position.z`. -/
theorem c7_model_matrix_depth :
    ∀ (position : Vertex) (ratio : ℚ),
      (1 ≤ ratio →
        (resizeModelMatrix position ratio).getD 14 0 = ratio * (-position.z))
      ∧ (ratio < 1 →
        (resizeModelMatrix position ratio).getD 14 0 = -position.z)
      ∧ (resizeModelMatrix position 1).getD 14 0 = -position.z
      ∧ (resizeModelMatrix position 2).getD 14 0 = -2 * position.z := by
  intro position ratio
  have hterm : ∀ q : ℚ, (resizeModelMatrix position q).getD 14 0
      = (if q < 1 then 1 else q) * (-position.z) := fun q => rfl
  refine ⟨?_, ?_, ?_, ?_⟩
  · intro h
    rw [hterm, if_neg (not_lt.mpr h), ]
  · intro h
    rw [hterm, if_pos h, one_mul]
  · rw [hterm, if_neg (by norm_num : ¬((1 : ℚ) < 1)), one_mul]
  · rw [hterm, if_neg (by norm_num : ¬((2 : ℚ) < 1))]
    ring

/-- Witness for C7 at camera position (3, 4, 5), ratios 2 and 1/2. -/
theorem c7_model_matrix_depth_witness :
    (resizeModelMatrix ⟨3, 4, 5⟩ 2).getD 14 0 = 2 * (-(5 : ℚ))
    ∧ (resizeModelMatrix ⟨3, 4, 5⟩ (1 / 2)).getD 14 0 = -(5 : ℚ) :=
  ⟨(c7_model_matrix_depth ⟨3, 4, 5⟩ 2).1 (by norm_num),
   (c7_model_matrix_depth ⟨3, 4, 5⟩ (1 / 2)).2.1 (by norm_num)⟩

/-! C5: the uniform snapshot of `Renderer.add` (`index.ts` line 201):
`Object.assign(settings.uniforms, JSON.parse(JSON.stringify(this.uniforms)))`.
To state by-value versus by-reference, uniform values are modelled as cells
of an explicit heap (address-indexed store of numeric arrays); a descriptor
holds its type tag and the address of its value cell. -/

/-- The value heap; an address is a list index. -/
abbrev Heap := List (List ℚ)

/-- A uniform descriptor whose value lives in the heap. -/
structure URef where
  type : String
  valueAddr : Nat
deriving DecidableEq, Repr

/-- Heap read.  (Reading an unallocated address yields `[]`; the claims
only read valid addresses.) -/
def heapGet (h : Heap) (a : Nat) : List ℚ := h.getD a []

/-- The JSON round-trip plus `Object.assign` into the new instance's
uniform set: each renderer uniform is copied into a freshly allocated cell
holding a structural copy of its current value, and the new descriptor
points at the fresh cell. -/
def deepSnapshot : Heap → List (String × URef) → Heap × List (String × URef)
  | h, [] => (h, [])
  | h, (key, u) :: rest =>
    let step := deepSnapshot (h ++ [heapGet h u.valueAddr]) rest
    (step.1, (key, { type := u.type, valueAddr := h.length }) :: step.2)

/-- Name lookup among heap-level descriptors (JS object semantics). -/
def lookupURef (key : String) : List (String × URef) → Option URef
  | [] => none
  | p :: rest => if p.1 = key then some p.2 else lookupURef key rest

/-- The `uniforms[key].value = renderUniforms[key].value` broadcast at the
heap level: assigning the JS array reference makes the instance descriptor
point at the renderer's cell (same loop and error behaviour as
`broadcastUpdate`). -/
def broadcastValues : List (String × URef) → List (String × URef) →
    List (String × URef) × Bool
  | [], reg => (reg, true)
  | (key, u) :: rest, reg =>
    match lookupURef key reg with
    | none => (reg, false)
    | some _ =>
      broadcastValues rest
        (reg.map (fun p =>
          if p.1 = key then (p.1, { p.2 with valueAddr := u.valueAddr }) else p))

theorem deepSnapshot_extends :
    ∀ (rus : List (String × URef)) (h : Heap), ∃ t, (deepSnapshot h rus).1 = h ++ t := by
  intro rus
  induction rus with
  | nil => intro h; exact ⟨[], by simp [deepSnapshot]⟩
  | cons p rest ih =>
    intro h
    obtain ⟨k0, u0⟩ := p
    obtain ⟨t, ht⟩ := ih (h ++ [heapGet h u0.valueAddr])
    exact ⟨[heapGet h u0.valueAddr] ++ t, by simp [deepSnapshot, ht]⟩

theorem lookupURef_mem :
    ∀ (l : List (String × URef)) (key : String) (u : URef),
      lookupURef key l = some u → (key, u) ∈ l := by
  intro l
  induction l with
  | nil => intro key u h; simp [lookupURef] at h
  | cons p rest ih =>
    intro key u h
    by_cases hp : p.1 = key
    · subst hp
      simp [lookupURef] at h
      subst h
      exact List.mem_cons_self _ _
    · simp only [lookupURef] at h
      rw [if_neg hp] at h
      exact List.mem_cons_of_mem _ (ih key u h)

theorem heapGet_append_lt (h t : Heap) (a : Nat) (ha : a < h.length) :
    heapGet (h ++ t) a = heapGet h a :=
  List.getD_append h t [] a ha

theorem heapGet_set_ne (h : Heap) (a b : Nat) (v : List ℚ) (hne : a ≠ b) :
    heapGet (h.set a v) b = heapGet h b := by
  simp [heapGet, List.getD_eq_getElem?_getD, List.getElem?_set_ne hne]

/-- Every renderer uniform found by name is snapshotted into a fresh cell
(address at or beyond the old heap end) holding an equal copy of its
value. -/
theorem deepSnapshot_lookup :
    ∀ (rus : List (String × URef)) (h : Heap),
      (∀ p ∈ rus, p.2.valueAddr < h.length) →
      ∀ (key : String) (u : URef), lookupURef key rus = some u →
        ∃ u', lookupURef key (deepSnapshot h rus).2 = some u'
          ∧ u'.type = u.type
          ∧ h.length ≤ u'.valueAddr
          ∧ heapGet (deepSnapshot h rus).1 u'.valueAddr = heapGet h u.valueAddr := by
  intro rus
  induction rus with
  | nil => intro h _ key u hk; simp [lookupURef] at hk
  | cons p rest ih =>
    intro h hvalid key u hk
    obtain ⟨k0, u0⟩ := p
    by_cases hp : k0 = key
    · have hu : u = u0 := by
        subst hp
        simp [lookupURef] at hk
        exact hk.symm
      subst hu
      refine ⟨{ type := u.type, valueAddr := h.length }, ?_, rfl, Nat.le_refl _, ?_⟩
      · simp [deepSnapshot, lookupURef, hp]
      · obtain ⟨t, ht⟩ := deepSnapshot_extends rest (h ++ [heapGet h u.valueAddr])
        show heapGet (deepSnapshot (h ++ [heapGet h u.valueAddr]) rest).1 h.length
          = heapGet h u.valueAddr
        rw [ht, List.append_assoc]
        show (h ++ ([heapGet h u.valueAddr] ++ t)).getD h.length [] = heapGet h u.valueAddr
        rw [List.getD_append_right _ _ _ _ (Nat.le_refl _), Nat.sub_self]
        rfl
    · have hk' : lookupURef key rest = some u := by
        simp only [lookupURef] at hk
        rwa [if_neg hp] at hk
      have hvalid1 : ∀ q ∈ rest, q.2.valueAddr < (h ++ [heapGet h u0.valueAddr]).length := by
        intro q hq
        have := hvalid q (List.mem_cons_of_mem _ hq)
        simp only [List.length_append, List.length_cons, List.length_nil]
        omega
      obtain ⟨u', hlook, htype, hge, hval⟩ := ih (h ++ [heapGet h u0.valueAddr]) hvalid1 key u hk'
      have humem : (key, u) ∈ rest := lookupURef_mem rest key u hk'
      have huv : u.valueAddr < h.length := by
        simpa using hvalid (key, u) (List.mem_cons_of_mem _ humem)
      refine ⟨u', ?_, htype, ?_, ?_⟩
      · simp [deepSnapshot, lookupURef, hp, hlook]
      · simp only [List.length_append, List.length_cons, List.length_nil] at hge
        omega
      · calc heapGet (deepSnapshot h ((k0, u0) :: rest)).1 u'.valueAddr
            = heapGet (deepSnapshot (h ++ [heapGet h u0.valueAddr]) rest).1 u'.valueAddr := rfl
          _ = heapGet (h ++ [heapGet h u0.valueAddr]) u.valueAddr := hval
          _ = heapGet h u.valueAddr := heapGet_append_lt _ _ _ huv

/-- Concrete heap for the C5 scenario: one renderer uniform value cell. -/
def c5Heap : Heap := [[0, 0, 2]]

/-- The renderer's shared uniform set: a camera vector at cell 0. -/
def c5RendererUniforms : List (String × URef) :=
  [("uCamera", { type := "vec3", valueAddr := 0 })]

/-- The heap after `add` snapshots the renderer uniforms and the renderer's
camera cell is then mutated in place to `[9, 9, 9]`. -/
def c5MutatedHeap : Heap :=
  ((deepSnapshot c5Heap c5RendererUniforms).1).set 0 [9, 9, 9]

/-- C5: `add` copies the renderer's shared uniforms by value, not by
reference: each instance descriptor receives a fresh cell (a different
address from the renderer's) holding an equal copy of the value, so
mutating the renderer's cell after `add` leaves the instance's value
unchanged.  The concrete conjuncts run the scenario: the snapshot points at
the fresh cell 1; after mutating the renderer's cell 0 the instance still
reads the snapshot value while the renderer's cell did change; and the
`render` broadcast then re-points the instance descriptor at the renderer's
cell 0, whose value the instance only then observes. -/
theorem c5_snapshot_by_value :
    (∀ (h : Heap) (rus : List (String × URef)) (key : String) (u : URef),
      (∀ p ∈ rus, p.2.valueAddr < h.length) →
      lookupURef key rus = some u →
      ∃ u', lookupURef key (deepSnapshot h rus).2 = some u'
        ∧ u'.type = u.type
        ∧ u'.valueAddr ≠ u.valueAddr
        ∧ heapGet (deepSnapshot h rus).1 u'.valueAddr = heapGet h u.valueAddr
        ∧ ∀ v, heapGet ((deepSnapshot h rus).1.set u.valueAddr v) u'.valueAddr
            = heapGet (deepSnapshot h rus).1 u'.valueAddr)
    ∧ (deepSnapshot c5Heap c5RendererUniforms).2
        = [("uCamera", { type := "vec3", valueAddr := 1 })]
    ∧ heapGet c5MutatedHeap 1 = [0, 0, 2]
    ∧ heapGet c5MutatedHeap 0 = [9, 9, 9]
    ∧ (broadcastValues c5RendererUniforms (deepSnapshot c5Heap c5RendererUniforms).2).1
        = [("uCamera", { type := "vec3", valueAddr := 0 })] := by
  refine ⟨?_, by rfl, by rfl, by rfl, by rfl⟩
  intro h rus key u hvalid hk
  obtain ⟨u', hlook, htype, hge, hval⟩ := deepSnapshot_lookup rus h hvalid key u hk
  have humem : (key, u) ∈ rus := lookupURef_mem rus key u hk
  have huv : u.valueAddr < h.length := by simpa using hvalid (key, u) humem
  refine ⟨u', hlook, htype, by omega, hval, ?_⟩
  intro v
  exact heapGet_set_ne _ _ _ _ (by omega)

/-- Witness for C5 at the concrete one-uniform renderer. -/
theorem c5_snapshot_by_value_witness :
    ∃ u', lookupURef "uCamera" (deepSnapshot c5Heap c5RendererUniforms).2 = some u'
      ∧ u'.type = "vec3"
      ∧ u'.valueAddr ≠ 0
      ∧ heapGet (deepSnapshot c5Heap c5RendererUniforms).1 u'.valueAddr = heapGet c5Heap 0
      ∧ ∀ v, heapGet ((deepSnapshot c5Heap c5RendererUniforms).1.set 0 v) u'.valueAddr
          = heapGet (deepSnapshot c5Heap c5RendererUniforms).1 u'.valueAddr :=
  c5_snapshot_by_value.1 c5Heap c5RendererUniforms "uCamera"
    { type := "vec3", valueAddr := 0 } (by decide) (by rfl)

end Phenomenon
